import Mathlib

/-!
Verification development for the distributed ML document orchestrator.

The definitions below are a shallow embedding of the orchestrator's
coordination core: the DynamoDB single-table data model and key generator
(`models.ts`), the document-status store operations
(`document-status.service.ts`), the DynamoDB-stream aggregator trigger
(the Lambda `handler`), the poll-path scan (`stream-poller.service.ts`),
the Kinesis consumer's per-document worker loop (`consumer.service.ts`),
the Gemini retry wrapper (`gemini.service.ts`) and the aggregation step
(`aggregator.service.ts`).  Machine integers are modelled as `Nat`
(page counts are small and non-negative in the source), JavaScript
strings as `String`, JSON values as an inductive `Json`, absent DynamoDB
attributes as `Option`, and effectful service methods as pure functions
from their inputs (and the outcomes of external collaborator calls) to
explicit effect traces.  Store and blob writes are modelled as succeeding;
the external analysis call and the blob download are given explicit
success/failure outcomes because the source branches on them.
-/

namespace DocOrch

/-- Character of a decimal digit, codepoint 48 + d, as produced by the
JavaScript number-to-string conversion used in the key generator. -/
def digitChar (d : Nat) : Char := Char.ofNat (48 + d)

/-- Little-endian decimal digits of a natural number, with an explicit
fuel argument so that the recursion is structural. -/
def decDigitsAux : Nat → Nat → List Nat
  | 0, _ => []
  | fuel + 1, n => if n = 0 then [] else n % 10 :: decDigitsAux fuel (n / 10)

/-- Little-endian decimal digits of a natural number (empty for 0). -/
def decDigits (n : Nat) : List Nat := decDigitsAux n n

/-- Embeds JavaScript `pageNumber.toString()` as a character list:
most-significant digit first, no leading zeros, and the single digit 0
for the number 0. -/
def jsNatChars (n : Nat) : List Char :=
  if n = 0 then [Char.ofNat 48] else ((decDigits n).reverse.map digitChar)

/-- Embeds JavaScript `s.padStart(4, '0')` on a character list. -/
def padStart4 (s : List Char) : List Char :=
  List.replicate (4 - s.length) '0' ++ s

/-- Lexicographic (codepoint) order on character lists, as a Boolean.
This is the order in which DynamoDB returns items of one partition when
queried by sort key (UTF-8 byte order, which agrees with codepoint order
on the ASCII keys this system generates). -/
def lexLt : List Char → List Char → Bool
  | _, [] => false
  | [], _ :: _ => true
  | a :: as, b :: bs =>
    if a.toNat < b.toNat then true
    else if b.toNat < a.toNat then false
    else lexLt as bs

/-- Lexicographic (codepoint) order on strings. -/
def strLt (s t : String) : Bool := lexLt s.data t.data

/-- The k-digit decimal representation of n (most-significant first,
with leading zeros), used to reason about the padded sort keys. -/
def padDigits : Nat → Nat → List Nat
  | 0, _ => []
  | k + 1, n => padDigits k (n / 10) ++ [n % 10]

/-- Character list of the page sort key `PAGE#` + zero-padded page number,
as generated by `DynamoDBKeyGenerator.documentPageKeys`. -/
def pageKeyChars (n : Nat) : List Char :=
  ("PAGE#").data ++ padStart4 (jsNatChars n)

/-- Embeds `DynamoDBKeyGenerator.documentPageKeys`: partition key
`DOC#` + fileId and sort key `PAGE#` + the page number left-padded
with zeros to 4 digits. -/
def documentPageKeys (fileId : String) (pageNumber : Nat) : String × String :=
  (("DOC#") ++ fileId, String.mk (pageKeyChars pageNumber))

/-- Minimal JSON value model for the analysis payloads that the worker
stores with `JSON.stringify` and the aggregator re-reads with
`JSON.parse` (the string round-trip is modelled as storing the value). -/
inductive Json where
  | jnull : Json
  | jbool : Bool → Json
  | jnum : Int → Json
  | jstr : String → Json
  | jarr : List Json → Json
  | jobj : List (String × Json) → Json

/-- Field lookup in a JSON object, first binding wins. -/
def jlookup : List (String × Json) → String → Option Json
  | [], _ => none
  | (k, v) :: rest, key => if k = key then some v else jlookup rest key

/-- JavaScript truthiness of a possibly-absent JSON value (an absent
object property reads as `undefined`, which is falsy). -/
def jsTruthy : Option Json → Bool
  | none => false
  | some .jnull => false
  | some (.jbool b) => b
  | some (.jnum n) => !(n == 0)
  | some (.jstr s) => !s.isEmpty
  | some (.jarr _) => true
  | some (.jobj _) => true

/-- Embeds the aggregator's dynamic error-marker test
`JSON.parse(p.pageAnalysis).error` (truthiness of the `error` property;
a non-object JSON value has no properties, so the read is falsy). -/
def hasTruthyError (j : Json) : Bool :=
  match j with
  | .jobj fields => jsTruthy (jlookup fields ("error"))
  | _ => false

/-- One row of the single DynamoDB table (`DocumentStatus` in
`models.ts`): document-level status rows (SK = STATUS) and page rows
(SK = PAGE#nnnn) share this shape, with the attributes that do not apply
to a given row kind absent (`none`).  Timestamp, TTL and GSI attributes
are not modelled: no claim mentions them. -/
structure Item where
  PK : String
  SK : String
  fileId : String
  tenantId : String
  overallStatus : Option String
  totalPages : Option Nat
  processedPages : Option Nat
  failedPages : Option Nat
  pageNumber : Option Nat
  pageAnalysis : Option Json

/-- Embeds `DynamoDBKeyGenerator.isProcessingComplete` from `models.ts`:
SK is STATUS, both counters are defined, processed equals total, and the
overall status is `processing`.  Note: the source performs no
`totalPages > 0` check here. -/
def isProcessingComplete (s : Item) : Bool :=
  s.SK == ("STATUS") && s.processedPages.isSome && s.totalPages.isSome &&
  s.processedPages == s.totalPages && s.overallStatus == some ("processing")

/-- A DynamoDB `PutCommand` on the single table: unconditional put that
replaces any existing item with the same composite key. -/
def putItem (t : List Item) (it : Item) : List Item :=
  it :: t.filter (fun j => !(j.PK == it.PK && j.SK == it.SK))

/-- Point lookup by composite key (`GetCommand`). -/
def getItem (t : List Item) (pk sk : String) : Option Item :=
  t.find? (fun j => j.PK == pk && j.SK == sk)

/-- Number of stored items carrying a given composite key. -/
def keyCount (t : List Item) (pk sk : String) : Nat :=
  t.countP (fun j => j.PK == pk && j.SK == sk)

/-- Embeds `DocumentStatusService.createDocumentStatus`: builds the
status item (overall status `pending`, the caller-supplied total page
count, zero processed and failed pages) and writes it with an
unconditional `PutCommand` (the source attaches no condition
expression), returning the item. -/
def createDocumentStatus (t : List Item) (fileId tenantId : String)
    (totalPages : Nat) : List Item × Item :=
  let item : Item :=
    { PK := ("DOC#") ++ fileId, SK := ("STATUS"),
      fileId := fileId, tenantId := tenantId,
      overallStatus := some ("pending"),
      totalPages := some totalPages,
      processedPages := some 0,
      failedPages := some 0,
      pageNumber := none, pageAnalysis := none }
  (putItem t item, item)

/-- Embeds `DocumentStatusService.incrementProcessedPages`.  The update
expression `SET processedPages = if_not_exists(processedPages, 0) + 1`
is evaluated by the store in one atomic step, which this model captures
by making the whole update a single transition on the record.  The
TypeScript method's return type is `Promise<void>` and the
`UpdateCommand` requests no `ReturnValues`, so the second component —
the value handed back to the caller — is `none`. -/
def incrementProcessedPages (it : Item) : Item × Option Nat :=
  ({ it with processedPages := some (it.processedPages.getD 0 + 1) }, none)

/-- K successive applications of the atomic increment.  Because each
increment is a single store-level transition, any interleaving of K
concurrent increments is equal to some sequence of K successive
applications, so this also models K concurrently completing workers. -/
def iterateIncrement : Nat → Item → Item
  | 0, it => it
  | k + 1, it => iterateIncrement k (incrementProcessedPages it).1

/-- New/old image of a document-status row as delivered on the DynamoDB
stream to the aggregator Lambda `handler` (string/number attributes the
handler reads after its SK check). -/
structure StreamImage where
  SK : String
  fileId : String
  tenantId : String
  totalPages : Nat
  processedPages : Nat
  overallStatus : String

/-- One stream record of a `DynamoDBStreamEvent`. -/
structure StreamRecord where
  eventName : String
  newImage : Option StreamImage
  oldImage : Option StreamImage

/-- Embeds the per-record decision of the aggregator Lambda `handler`:
skip non-MODIFY events, skip records lacking either image, skip non-STATUS
rows, and invoke `aggregateResults(fileId, tenantId, totalPages)` exactly
when processed = total, total > 0 and the overall status is
`processing`. -/
def handlerDecision (r : StreamRecord) : Option (String × String × Nat) :=
  if r.eventName ≠ ("MODIFY") then none
  else
    match r.newImage, r.oldImage with
    | some ni, some _ =>
      if ni.SK ≠ ("STATUS") then none
      else if ni.processedPages = ni.totalPages ∧ 0 < ni.totalPages ∧
          ni.overallStatus = ("processing") then
        some (ni.fileId, ni.tenantId, ni.totalPages)
      else none
    | _, _ => none

/-- The aggregation invocations produced by one stream event (the
handler's loop over `event.Records`). -/
def handlerInvocations (records : List StreamRecord) : List (String × String × Nat) :=
  records.filterMap handlerDecision

/-- Embeds the `ScanCommand` filter of
`DocumentStatusService.getReadyForAggregation`:
`SK = STATUS AND overallStatus = processing AND
processedPages = totalPages AND totalPages > 0`;  a DynamoDB comparison
involving an absent attribute is false. -/
def readyFilter (it : Item) : Bool :=
  it.SK == ("STATUS") && it.overallStatus == some ("processing") &&
  (match it.processedPages, it.totalPages with
   | some p, some tot => p == tot && decide (0 < tot)
   | _, _ => false)

/-- Embeds `DocumentStatusService.getReadyForAggregation`. -/
def readyForAggregation (t : List Item) : List Item := t.filter readyFilter

/-- Embeds `StreamPollerService.checkForCompletedDocuments`: one
aggregation invocation `(fileId, tenantId, totalPages)` per scanned
document. -/
def pollInvocations (t : List Item) : List (String × String × Nat) :=
  (readyForAggregation t).map (fun it => (it.fileId, it.tenantId, it.totalPages.getD 0))

/-- Error raised by the analysis collaborator.  `rateLimit` stands for an
error whose message contains `429` (the rate-limit signal the source
tests for); `other` is any other error, including a failed JSON parse of
the model output. -/
inductive GemErr where
  | rateLimit : GemErr
  | other : String → GemErr

/-- Embeds `GeminiService.analyzeChunk(text, retries, delay)`.  The
external call is modelled by `attempt`, giving the outcome of the k-th
attempt.  The result pairs the list of back-off sleeps performed (in
order) with the final outcome.  The source retries exactly when the
error message contains `429` and `retries > 0`, sleeping `delay` and
recursing with `retries - 1` and `delay * 2`; any other error, or an
exhausted budget, is re-thrown.  The call sites use the source's default
arguments `retries = 3`, `delay = 2000`. -/
def analyzeChunk (attempt : Nat → Except GemErr Json) :
    Nat → Nat → Nat → List Nat × Except GemErr Json
  | k, 0, _ =>
    match attempt k with
    | .ok v => ([], .ok v)
    | .error e => ([], .error e)
  | k, r + 1, delay =>
    match attempt k with
    | .ok v => ([], .ok v)
    | .error .rateLimit =>
      let rest := analyzeChunk attempt (k + 1) r (delay * 2)
      (delay :: rest.1, rest.2)
    | .error (.other m) => ([], .error (.other m))

/-- Back-off schedule of a run of r consecutive rate-limited attempts
starting from base delay d: d, 2d, 4d, ... -/
def geometricDelays : Nat → Nat → List Nat
  | _, 0 => []
  | d, r + 1 => d :: geometricDelays (d * 2) r

/-- One field-update write to the document status row
(`updateDocumentStatus`/`updateStatus`): the optional fields that the
call sets. -/
structure StatusWrite where
  overallStatus : Option String
  completedAt : Option String
  resultS3Key : Option String
  errorMessage : Option String

/-- A write that sets only the overall status
(`DocumentStatusService.updateStatus`). -/
def statusOnly (s : String) : StatusWrite := ⟨some s, none, none, none⟩

/-- Store effects issued by the worker (`ConsumerService.processDocument`). -/
inductive WEffect where
  | statusW : StatusWrite → WEffect
  | setTotal : Nat → WEffect
  | writePage : Nat → Json → WEffect
  | increment : WEffect

/-- The failure placeholder the worker stores when a page's analysis
fails: `{ error: 'Analysis failed', timestamp: ... }`. -/
def failureMarker (now : String) : Json :=
  .jobj [(("error"), .jstr ("Analysis failed")), (("timestamp"), .jstr now)]

/-- Embeds one iteration of the worker's per-page loop in
`ConsumerService.processDocument`: try the analysis and save its result
as the PageRecord; on any error, save the failure marker instead
(the catch clause absorbs the page error); in both cases the `finally`
clause increments the processed counter.  The `Except.ok ()` result
records that no exception escapes the iteration. -/
def processPage (pageNumber : Nat) (now : String)
    (outcome : Except GemErr Json) : List WEffect × Except GemErr Unit :=
  match outcome with
  | .ok analysis => ([.writePage pageNumber analysis, .increment], .ok ())
  | .error _ => ([.writePage pageNumber (failureMarker now), .increment], .ok ())

/-- What `pdf-parse` hands back to the worker: the page count
(`data.numpages`) and the per-page extracted texts. -/
structure PdfData where
  numpages : Nat
  pageTexts : List String

/-- Concatenation of the per-page effect lists in page order. -/
def concatPages (f : Nat → List WEffect) : List Nat → List WEffect
  | [] => []
  | i :: is => f i ++ concatPages f is

/-- Embeds `ConsumerService.processDocument`.  `ingest` is the combined
outcome of the S3 download and the PDF parse (both happen before any
page is enumerated and both failures reach the same catch clause);
`analyze` gives the outcome of `analyzeChunk` for each 1-based page
number.  The trace records, in order: the transition to `processing`;
then on ingest failure only the transition to `failed` (the catch clause
sets only the overall status — no error message attribute — and does not
re-throw); on success the `totalPages` write followed by the per-page
effects.  The result `Except.ok ()` records that the method never
throws to its caller. -/
def processDocument (now : String) (ingest : Except String PdfData)
    (analyze : Nat → Except GemErr Json) : List WEffect × Except String Unit :=
  match ingest with
  | .error _ =>
    ([.statusW (statusOnly ("processing")), .statusW (statusOnly ("failed"))], .ok ())
  | .ok pdfData =>
    ([.statusW (statusOnly ("processing")), .setTotal pdfData.numpages] ++
      concatPages (fun i => (processPage i now (analyze i)).1)
        ((List.range pdfData.pageTexts.length).map (· + 1)),
      .ok ())

/-- Overall statuses set by a worker effect trace, in order. -/
def statusTrace (effs : List WEffect) : List String :=
  effs.filterMap (fun e => match e with
    | .statusW w => w.overallStatus
    | _ => none)

/-- Number of counter increments in a worker effect trace. -/
def countIncrements (effs : List WEffect) : Nat :=
  effs.countP (fun e => match e with
    | .increment => true
    | _ => false)

/-- Number of PageRecord writes in a worker effect trace. -/
def countPageWrites (effs : List WEffect) : Nat :=
  effs.countP (fun e => match e with
    | .writePage _ _ => true
    | _ => false)

/-- Number of totalPages writes in a worker effect trace. -/
def countSetTotal (effs : List WEffect) : Nat :=
  effs.countP (fun e => match e with
    | .setTotal _ => true
    | _ => false)

/-- Whether any status write in the trace records an error message. -/
def recordsErrorDetail (effs : List WEffect) : Bool :=
  effs.any (fun e => match e with
    | .statusW w => w.errorMessage.isSome
    | _ => false)

/-- One entry of the aggregated manifest's `chunks` list. -/
structure ManifestChunk where
  pageNumber : Option Nat
  analysis : Option Json
  status : String

/-- The aggregated results JSON the aggregator uploads to S3. -/
structure Manifest where
  fileId : String
  tenantId : String
  processedAt : String
  totalPages : Nat
  successCount : Nat
  failedCount : Nat
  chunks : List ManifestChunk

/-- A fetched page row counts as failed when its stored payload parses
to a value with a truthy `error` property
(`p.pageAnalysis && JSON.parse(p.pageAnalysis).error`). -/
def pageIsFailed (p : Item) : Bool :=
  match p.pageAnalysis with
  | some j => hasTruthyError j
  | none => false

/-- A fetched page row counts as successful when its payload is present
and has no truthy `error` property. -/
def pageIsSuccess (p : Item) : Bool :=
  match p.pageAnalysis with
  | some j => !(hasTruthyError j)
  | none => false

/-- Manifest entry built from one fetched page row. -/
def chunkOf (p : Item) : ManifestChunk :=
  { pageNumber := p.pageNumber, analysis := p.pageAnalysis,
    status := if pageIsFailed p then ("failed") else ("success") }

/-- The aggregated-results object built in
`AggregatorService.aggregateResults`. -/
def buildManifest (fileId tenantId now : String) (totalPages : Nat)
    (pages : List Item) : Manifest :=
  { fileId := fileId, tenantId := tenantId, processedAt := now,
    totalPages := totalPages,
    successCount := (pages.filter pageIsSuccess).length,
    failedCount := (pages.filter pageIsFailed).length,
    chunks := pages.map chunkOf }

/-- Deterministic manifest location `tenant/document/results.json`
(`S3Service.uploadResults`). -/
def resultsKey (tenantId fileId : String) : String :=
  tenantId ++ ("/") ++ fileId ++ ("/results.json")

/-- Observable outcome of one `aggregateResults` invocation: the status
writes issued (in order), the S3 manifest writes, and whether an
exception reached the caller. -/
structure AggOutcome where
  statusWrites : List StatusWrite
  s3Writes : List (String × Manifest)
  result : Except String Unit

/-- Embeds `AggregatorService.aggregateResults(fileId, tenantId,
totalPages)` given the page rows the store query returned.  The method
first sets status `aggregating`; if fewer than `totalPages` rows are
visible it resets the status to `processing` and returns; otherwise it
uploads the manifest and marks the document `completed` with the result
location.  Store and blob writes are modelled as succeeding, so the
catch clause that marks the document `failed` is not reachable in this
model. -/
def aggregateResults (fileId tenantId : String) (totalPages : Nat)
    (pages : List Item) (now : String) : AggOutcome :=
  if pages.length < totalPages then
    { statusWrites := [statusOnly ("aggregating"), statusOnly ("processing")],
      s3Writes := [], result := .ok () }
  else
    { statusWrites := [statusOnly ("aggregating"),
        { overallStatus := some ("completed"), completedAt := some now,
          resultS3Key := some (resultsKey tenantId fileId), errorMessage := none }],
      s3Writes := [(resultsKey tenantId fileId,
        buildManifest fileId tenantId now totalPages pages)],
      result := .ok () }

/-- Concrete status row used as a test input: pristine record of a
three-page document in processing, no pages counted yet. -/
def sampleStatus : Item :=
  { PK := ("DOC#f"), SK := ("STATUS"), fileId := ("f"), tenantId := ("t"),
    overallStatus := some ("processing"), totalPages := some 3,
    processedPages := some 0, failedPages := some 0,
    pageNumber := none, pageAnalysis := none }

/-- Concrete status row used as a test input: a document whose
extraction has not yet finished (totalPages still 0) while already in
`processing`, no pages counted. -/
def zeroTotalStatus : Item :=
  { PK := ("DOC#z"), SK := ("STATUS"), fileId := ("z"), tenantId := ("t"),
    overallStatus := some ("processing"), totalPages := some 0,
    processedPages := some 0, failedPages := some 0,
    pageNumber := none, pageAnalysis := none }

/-- Concrete stream image of a just-completed three-page document. -/
def imgDone : StreamImage :=
  { SK := ("STATUS"), fileId := ("f"), tenantId := ("t"),
    totalPages := 3, processedPages := 3, overallStatus := ("processing") }

/-- Concrete MODIFY stream record carrying `imgDone`. -/
def recDone : StreamRecord :=
  { eventName := ("MODIFY"), newImage := some imgDone, oldImage := some imgDone }

/-- Concrete stream image with totalPages = 0 (extraction unfinished). -/
def imgZero : StreamImage :=
  { SK := ("STATUS"), fileId := ("z"), tenantId := ("t"),
    totalPages := 0, processedPages := 0, overallStatus := ("processing") }

/-- Concrete MODIFY stream record carrying `imgZero`. -/
def recZero : StreamRecord :=
  { eventName := ("MODIFY"), newImage := some imgZero, oldImage := some imgZero }

/-- Analysis collaborator whose every attempt hits the rate limit. -/
def allRate : Nat → Except GemErr Json := fun _ => .error .rateLimit

/-- A sample successful structured analysis payload (no error key). -/
def successJson : Json :=
  .jobj [(("summary"), .jstr ("ok")), (("sentiment"), .jstr ("neutral"))]

/-- Concrete stored page row of document `f`. -/
def pageRow (n : Nat) (payload : Json) : Item :=
  { PK := ("DOC#f"), SK := String.mk (pageKeyChars n), fileId := ("f"),
    tenantId := ("t"), overallStatus := none, totalPages := none,
    processedPages := none, failedPages := none,
    pageNumber := some n, pageAnalysis := some payload }

/-- Concrete fetched page list: page 1 succeeded, page 2 carries the
failure marker. -/
def samplePages : List Item :=
  [pageRow 1 successJson, pageRow 2 (failureMarker ("ts"))]

theorem decDigitsAux_congr :
    ∀ (f g n : Nat), n ≤ f → n ≤ g → decDigitsAux f n = decDigitsAux g n := by
  intro f
  induction f with
  | zero =>
    intro g n hf _
    interval_cases n
    cases g <;> simp [decDigitsAux]
  | succ f ih =>
    intro g n hf hg
    cases g with
    | zero =>
      interval_cases n
      simp [decDigitsAux]
    | succ g =>
      by_cases hn : n = 0
      · subst hn; simp [decDigitsAux]
      · have hpos : 0 < n := Nat.pos_of_ne_zero hn
        have hdiv : n / 10 < n := Nat.div_lt_self hpos (by norm_num)
        have h1 : n / 10 ≤ f := Nat.lt_succ_iff.mp (Nat.lt_of_lt_of_le hdiv hf)
        have h2 : n / 10 ≤ g := Nat.lt_succ_iff.mp (Nat.lt_of_lt_of_le hdiv hg)
        simp only [decDigitsAux, if_neg hn]
        exact congrArg (n % 10 :: ·) (ih g (n / 10) h1 h2)

theorem decDigits_zero : decDigits 0 = [] := rfl

theorem decDigits_def (n : Nat) (h : 0 < n) :
    decDigits n = n % 10 :: decDigits (n / 10) := by
  obtain ⟨m, rfl⟩ := Nat.exists_eq_add_of_lt h
  simp only [decDigits, decDigitsAux, Nat.zero_add]
  rw [if_neg (by omega)]
  have hdiv : (m + 1) / 10 ≤ m := by
    have := Nat.div_lt_self (Nat.succ_pos m) (by norm_num : 1 < 10)
    omega
  exact congrArg ((m + 1) % 10 :: ·)
    (decDigitsAux_congr m ((m + 1) / 10) ((m + 1) / 10) hdiv (Nat.le_refl _))

theorem padDigits_length : ∀ (k n : Nat), (padDigits k n).length = k := by
  intro k
  induction k with
  | zero => intro n; rfl
  | succ k ih => intro n; simp [padDigits, ih]

theorem padDigits_eq_pad :
    ∀ (k n : Nat), n < 10 ^ k →
      padDigits k n =
        List.replicate (k - (decDigits n).length) 0 ++ (decDigits n).reverse := by
  intro k
  induction k with
  | zero =>
    intro n hn
    interval_cases n
    simp [padDigits, decDigits_zero]
  | succ k ih =>
    intro n hn
    by_cases hzero : n = 0
    · subst hzero
      have h0 : padDigits k 0 = List.replicate k 0 := by
        have := ih 0 (Nat.pos_pow_of_pos k (by norm_num))
        simpa [decDigits_zero] using this
      simp [padDigits, decDigits_zero, h0, ← List.replicate_succ' (n := k)]
    · have hpos : 0 < n := Nat.pos_of_ne_zero hzero
      have hdig := decDigits_def n hpos
      have hdivlt : n / 10 < 10 ^ k := by
        have hlt : n < 10 * 10 ^ k := by
          calc n < 10 ^ (k + 1) := hn
          _ = 10 * 10 ^ k := by ring
        exact Nat.div_lt_of_lt_mul hlt
      have ihd := ih (n / 10) hdivlt
      simp only [padDigits, ihd, hdig]
      simp [List.reverse_cons, Nat.succ_sub_succ, List.append_assoc]

theorem lexLt_irrefl : ∀ (s : List Char), lexLt s s = false := by
  intro s
  induction s with
  | nil => rfl
  | cons a as ih =>
    simp only [lexLt, Nat.lt_irrefl, if_false]
    exact ih

theorem lexLt_asymm :
    ∀ (s t : List Char), lexLt s t = true → lexLt t s = false := by
  intro s
  induction s with
  | nil =>
    intro t h
    cases t with
    | nil => simp [lexLt] at h
    | cons b bs => rfl
  | cons a as ih =>
    intro t h
    cases t with
    | nil => simp [lexLt] at h
    | cons b bs =>
      simp only [lexLt] at h ⊢
      by_cases hab : a.toNat < b.toNat
      · have hba : ¬ b.toNat < a.toNat := Nat.lt_asymm hab
        simp [hab, hba]
      · by_cases hba : b.toNat < a.toNat
        · simp [hab, hba] at h
        · simp only [hab, hba, if_false] at h ⊢
          exact ih bs h

theorem lexLt_append_left :
    ∀ (A xs ys : List Char), lexLt xs ys = true → lexLt (A ++ xs) (A ++ ys) = true := by
  intro A
  induction A with
  | nil => intro xs ys h; simpa using h
  | cons a as ih =>
    intro xs ys h
    simp only [List.cons_append, lexLt, Nat.lt_irrefl, if_false]
    exact ih xs ys h

theorem lexLt_append_of_length :
    ∀ (A B xs ys : List Char), A.length = B.length → lexLt A B = true →
      lexLt (A ++ xs) (B ++ ys) = true := by
  intro A
  induction A with
  | nil =>
    intro B xs ys hlen h
    cases B with
    | nil => simp [lexLt] at h
    | cons b bs => simp at hlen
  | cons a as ih =>
    intro B xs ys hlen h
    cases B with
    | nil => simp at hlen
    | cons b bs =>
      simp only [List.length_cons, Nat.succ.injEq] at hlen
      simp only [lexLt] at h
      simp only [List.cons_append, lexLt]
      by_cases hab : a.toNat < b.toNat
      · simp [hab]
      · by_cases hba : b.toNat < a.toNat
        · simp [hab, hba] at h
        · simp only [hab, hba, if_false] at h ⊢
          exact ih bs xs ys hlen h

theorem digitChar_toNat_lt :
    ∀ (d : Nat), d < 10 → ∀ (e : Nat), e < 10 →
      ((digitChar d).toNat < (digitChar e).toNat ↔ d < e) := by
  decide

theorem padDigits_map_lexLt :
    ∀ (k m n : Nat), m < n → n < 10 ^ k →
      lexLt ((padDigits k m).map digitChar) ((padDigits k n).map digitChar) = true := by
  intro k
  induction k with
  | zero =>
    intro m n hmn hn
    interval_cases n
    omega
  | succ k ih =>
    intro m n hmn hn
    have hnd : n / 10 < 10 ^ k := by
      have hlt : n < 10 * 10 ^ k := by
        calc n < 10 ^ (k + 1) := hn
        _ = 10 * 10 ^ k := by ring
      exact Nat.div_lt_of_lt_mul hlt
    have hdivle : m / 10 ≤ n / 10 := Nat.div_le_div_right (Nat.le_of_lt hmn)
    simp only [padDigits, List.map_append]
    rcases Nat.lt_or_ge (m / 10) (n / 10) with hdiv | hge
    · exact lexLt_append_of_length _ _ _ _
        (by simp [padDigits_length]) (ih (m / 10) (n / 10) hdiv hnd)
    · have hdeq : m / 10 = n / 10 := Nat.le_antisymm hdivle hge
      have hmod : m % 10 < n % 10 := by
        have hm := Nat.div_add_mod m 10
        have hn10 := Nat.div_add_mod n 10
        omega
      rw [hdeq]
      apply lexLt_append_left
      simp only [List.map_cons, List.map_nil, lexLt]
      rw [if_pos]
      exact (digitChar_toNat_lt (m % 10) (Nat.mod_lt m (by norm_num)) (n % 10)
        (Nat.mod_lt n (by norm_num))).mpr hmod

theorem digitChar_zero : digitChar 0 = '0' := rfl

theorem pad4_eq :
    ∀ (n : Nat), n < 10000 →
      padStart4 (jsNatChars n) = (padDigits 4 n).map digitChar := by
  intro n hn
  have hpow : n < 10 ^ 4 := by norm_num at hn ⊢; exact hn
  have hped := padDigits_eq_pad 4 n hpow
  by_cases hzero : n = 0
  · subst hzero
    simp only [jsNatChars, if_pos rfl, padStart4, hped, decDigits_zero]
    decide
  · have hchars : jsNatChars n = (decDigits n).reverse.map digitChar := by
      simp [jsNatChars, hzero]
    have hlen : (jsNatChars n).length = (decDigits n).length := by
      simp [hchars]
    rw [hped, List.map_append, List.map_replicate, digitChar_zero,
      padStart4, hlen, List.map_reverse, hchars, List.map_reverse]

theorem pageKeyChars_lt :
    ∀ (m n : Nat), m < n → n ≤ 9999 →
      lexLt (pageKeyChars m) (pageKeyChars n) = true := by
  intro m n hmn hn
  have hm4 : m < 10000 := by omega
  have hn4 : n < 10000 := by omega
  simp only [pageKeyChars, pad4_eq m hm4, pad4_eq n hn4]
  exact lexLt_append_left _ _ _
    (padDigits_map_lexLt 4 m n hmn (by norm_num at hn4 ⊢; exact hn4))

theorem pageKeyChars_lt_iff :
    ∀ (m n : Nat), m ≤ 9999 → n ≤ 9999 →
      (lexLt (pageKeyChars m) (pageKeyChars n) = true ↔ m < n) := by
  intro m n hm hn
  constructor
  · intro h
    rcases Nat.lt_trichotomy m n with hlt | heq | hgt
    · exact hlt
    · subst heq
      rw [lexLt_irrefl] at h
      exact absurd h (by simp)
    · have := lexLt_asymm _ _ (pageKeyChars_lt n m hgt hm)
      rw [this] at h
      exact absurd h (by simp)
  · intro h
    exact pageKeyChars_lt m n h hn

/-- C1 counterexample: the claim says `incrementProcessedPages` returns
the new count to its caller, but the TypeScript method returns
`Promise<void>` (the `UpdateCommand` requests no `ReturnValues`); at the
concrete pristine status record the operation hands back nothing, not
the new count 1. -/
theorem claim_C1_counterexample :
    ¬ ((incrementProcessedPages sampleStatus).2 =
        some (sampleStatus.processedPages.getD 0 + 1)) := by
  decide

/-- C1 (amended): the increment is a single atomic store-layer add of 1
(the whole update is one store transition, so K successive — hence also
K interleaved — applications starting from counter p end at exactly
p + K, with no lost updates), but the operation returns no value to its
caller rather than the new count. -/
theorem claim_C1 :
    (∀ (it : Item) (p K : Nat), it.processedPages = some p →
        (iterateIncrement K it).processedPages = some (p + K)) ∧
    (∀ it : Item,
        ((incrementProcessedPages it).1).processedPages =
          some (it.processedPages.getD 0 + 1)) ∧
    (∀ it : Item, (incrementProcessedPages it).2 = none) := by
  refine ⟨?_, fun it => rfl, fun it => rfl⟩
  intro it p K
  induction K generalizing it p with
  | zero => intro h; simpa [iterateIncrement] using h
  | succ K ih =>
    intro h
    have h1 : ((incrementProcessedPages it).1).processedPages = some (p + 1) := by
      simp [incrementProcessedPages, h]
    have h2 := ih (incrementProcessedPages it).1 (p + 1) h1
    have h3 : iterateIncrement (K + 1) it =
        iterateIncrement K (incrementProcessedPages it).1 := rfl
    rw [h3, h2]
    exact congrArg some (by omega)

/-- C1 witness: five successive increments starting from counter 0 end
at exactly 5. -/
theorem claim_C1_witness :
    (iterateIncrement 5 sampleStatus).processedPages = some (0 + 5) :=
  claim_C1.1 sampleStatus 0 5 rfl

/-- C5: in every page iteration, whether the analysis call succeeds or
fails, exactly one PageRecord is written (the analysis on success, the
failure marker carrying a reason and timestamp on failure), exactly one
counter increment happens, the increment is the guaranteed last (finally)
effect, and no page-level failure escapes the iteration. -/
theorem claim_C5 :
    ∀ (pageNumber : Nat) (now : String) (outcome : Except GemErr Json),
      countPageWrites (processPage pageNumber now outcome).1 = 1 ∧
      countIncrements (processPage pageNumber now outcome).1 = 1 ∧
      (processPage pageNumber now outcome).1.getLast? = some .increment ∧
      (processPage pageNumber now outcome).2 = .ok () ∧
      (∀ a, outcome = .ok a →
        (processPage pageNumber now outcome).1 =
          [.writePage pageNumber a, .increment]) ∧
      (∀ e, outcome = .error e →
        (processPage pageNumber now outcome).1 =
          [.writePage pageNumber (failureMarker now), .increment]) := by
  intro pageNumber now outcome
  cases outcome with
  | ok a =>
    refine ⟨rfl, rfl, rfl, rfl, ?_, ?_⟩
    · intro b hb
      cases hb
      rfl
    · intro e he
      cases he
  | error e =>
    refine ⟨rfl, rfl, rfl, rfl, ?_, ?_⟩
    · intro b hb
      cases hb
    · intro e' he
      cases he
      rfl

/-- C5 witness: a rate-limit-exhausted page still gets its failure
marker written and loses no effect. -/
theorem claim_C5_witness :
    (processPage 2 ("ts") (.error .rateLimit)).1 =
      [.writePage 2 (failureMarker ("ts")), .increment] :=
  (claim_C5 2 ("ts") (.error .rateLimit)).2.2.2.2.2 .rateLimit rfl

/-- C6 counterexample: when the blob download fails before any page is
enumerated, the worker's catch clause sets only the overall status
(`updateStatus ... 'failed'`), so — against the claim — no error detail
is recorded on the status record; the status transitions processing,
failed are still issued. -/
theorem claim_C6_counterexample :
    statusTrace (processDocument ("t0") (.error ("download failed")) allRate).1 =
      [("processing"), ("failed")] ∧
    recordsErrorDetail
      (processDocument ("t0") (.error ("download failed")) allRate).1 = false :=
  ⟨rfl, rfl⟩

/-- C6 (amended): when the source blob download or whole-document
extraction fails before any page is enumerated, the overall status
transitions directly processing → failed (from the initial `pending` of
`createDocumentStatus`) with no error message persisted on the status
record, the processed-page counter is never incremented, totalPages is
never written (so it remains its initial 0), no PageRecords are written,
and the failure is not re-thrown. -/
theorem claim_C6 :
    ∀ (now errMsg : String) (analyze : Nat → Except GemErr Json),
      (processDocument now (.error errMsg) analyze).1 =
        [.statusW (statusOnly ("processing")), .statusW (statusOnly ("failed"))] ∧
      statusTrace (processDocument now (.error errMsg) analyze).1 =
        [("processing"), ("failed")] ∧
      countIncrements (processDocument now (.error errMsg) analyze).1 = 0 ∧
      countPageWrites (processDocument now (.error errMsg) analyze).1 = 0 ∧
      countSetTotal (processDocument now (.error errMsg) analyze).1 = 0 ∧
      recordsErrorDetail (processDocument now (.error errMsg) analyze).1 = false ∧
      (processDocument now (.error errMsg) analyze).2 = .ok () := by
  intro now errMsg analyze
  exact ⟨rfl, rfl, rfl, rfl, rfl, rfl, rfl⟩

/-- C9: a retry happens exactly on a rate-limit error with remaining
budget; the back-off starts at the base delay and doubles each retry;
non-rate-limit errors are re-thrown immediately; an exhausted budget
re-throws the rate-limit error (which the page loop then turns into a
failure marker). -/
theorem claim_C9 :
    (∀ (att : Nat → Except GemErr Json) (k r d : Nat) (v : Json),
        att k = .ok v → analyzeChunk att k r d = ([], .ok v)) ∧
    (∀ (att : Nat → Except GemErr Json) (k r d : Nat) (msg : String),
        att k = .error (.other msg) →
        analyzeChunk att k r d = ([], .error (.other msg))) ∧
    (∀ (att : Nat → Except GemErr Json) (k d : Nat),
        att k = .error .rateLimit →
        analyzeChunk att k 0 d = ([], .error .rateLimit)) ∧
    (∀ (att : Nat → Except GemErr Json) (k r d : Nat),
        att k = .error .rateLimit →
        analyzeChunk att k (r + 1) d =
          (d :: (analyzeChunk att (k + 1) r (d * 2)).1,
            (analyzeChunk att (k + 1) r (d * 2)).2)) ∧
    (∀ (att : Nat → Except GemErr Json) (k r d : Nat),
        (∀ j, att j = .error GemErr.rateLimit) →
        analyzeChunk att k r d = (geometricDelays d r, .error .rateLimit)) := by
  refine ⟨?_, ?_, ?_, ?_, ?_⟩
  · intro att k r d v h
    cases r <;> simp [analyzeChunk, h]
  · intro att k r d msg h
    cases r <;> simp [analyzeChunk, h]
  · intro att k d h
    simp [analyzeChunk, h]
  · intro att k r d h
    simp [analyzeChunk, h]
  · intro att k r d h
    induction r generalizing k d with
    | zero => simp [analyzeChunk, h k, geometricDelays]
    | succ r ih => simp [analyzeChunk, h k, geometricDelays, ih]

/-- C9 witness: with the source's default budget (3 retries) and base
delay (2000 ms), a permanently rate-limited page sleeps 2000, 4000, 8000
and then re-throws the rate-limit error. -/
theorem claim_C9_witness :
    analyzeChunk allRate 0 3 2000 = ([2000, 4000, 8000], .error .rateLimit) := by
  have h := claim_C9.2.2.2.2 allRate 0 3 2000 (fun _ => rfl)
  simpa [geometricDelays] using h

/-- C3: whenever fewer page rows are visible than `totalPages`, the
aggregator resets the overall status to `processing` (after the initial
`aggregating` transition), returns without raising, writes no manifest
to the blob store, and performs no `completed` transition. -/
theorem claim_C3 :
    ∀ (fid tid : String) (tot : Nat) (pages : List Item) (now : String),
      pages.length < tot →
      (aggregateResults fid tid tot pages now).statusWrites =
        [statusOnly ("aggregating"), statusOnly ("processing")] ∧
      (aggregateResults fid tid tot pages now).s3Writes = [] ∧
      (aggregateResults fid tid tot pages now).result = .ok () ∧
      (∀ w ∈ (aggregateResults fid tid tot pages now).statusWrites,
          w.overallStatus ≠ some ("completed")) ∧
      ((aggregateResults fid tid tot pages now).statusWrites.getLast?).map
          StatusWrite.overallStatus = some (some ("processing")) := by
  intro fid tid tot pages now h
  have key : aggregateResults fid tid tot pages now =
      { statusWrites := [statusOnly ("aggregating"), statusOnly ("processing")],
        s3Writes := [], result := .ok () } := by
    unfold aggregateResults
    rw [if_pos h]
  rw [key]
  refine ⟨rfl, rfl, rfl, ?_, rfl⟩
  intro w hw
  rcases List.mem_cons.mp hw with rfl | hw2
  · decide
  · rcases List.mem_singleton.mp hw2 with rfl
    decide

/-- C3 witness: one visible page of a two-page document defers
aggregation and writes nothing to the blob store. -/
theorem claim_C3_witness :
    (aggregateResults ("f") ("t") 2 [pageRow 1 successJson] ("ts")).s3Writes = [] ∧
    (aggregateResults ("f") ("t") 2 [pageRow 1 successJson] ("ts")).result = .ok () ∧
    ((aggregateResults ("f") ("t") 2 [pageRow 1 successJson]
        ("ts")).statusWrites.getLast?).map StatusWrite.overallStatus =
      some (some ("processing")) := by
  have h := claim_C3 ("f") ("t") 2 [pageRow 1 successJson] ("ts") (by decide)
  exact ⟨h.2.1, h.2.2.1, h.2.2.2.2⟩

/-- C4 counterexample: the data-model completion helper
`isProcessingComplete` performs no `totalPages > 0` check, so — against
the claim — it evaluates to true on a status record with totalPages = 0,
processedPages = 0 and overall status `processing`. -/
theorem claim_C4_counterexample : isProcessingComplete zeroTotalStatus = true := by
  decide

/-- C4 (amended): no execution path invokes aggregation for a document
with totalPages = 0 — the change-feed handler's condition and the
poll-path scan filter (the two predicates that actually gate calls to
`aggregateResults`) are false whenever totalPages is 0, regardless of the
counter — but the data-model completion helper `isProcessingComplete`,
which nothing in the repository calls, lacks the totalPages > 0 check
and evaluates to true on a processing record with both counters 0. -/
theorem claim_C4 :
    (∀ (r : StreamRecord) (ni : StreamImage),
        r.newImage = some ni → ni.totalPages = 0 → handlerDecision r = none) ∧
    (∀ it : Item, it.totalPages = some 0 → readyFilter it = false) ∧
    (∀ (t : List Item) (it : Item), it.totalPages = some 0 →
        it ∉ readyForAggregation t) ∧
    isProcessingComplete zeroTotalStatus = true := by
  have hfilter : ∀ it : Item, it.totalPages = some 0 → readyFilter it = false := by
    intro it h
    cases hp : it.processedPages <;> simp [readyFilter, h, hp]
  refine ⟨?_, hfilter, ?_, by decide⟩
  · intro r ni hni htot
    obtain ⟨ev, nI, oI⟩ := r
    simp only at hni
    subst hni
    unfold handlerDecision
    split
    · rfl
    · cases oI with
      | none => rfl
      | some oi =>
        simp only
        split
        · rfl
        · rw [if_neg]
          rintro ⟨-, h2, -⟩
          rw [htot] at h2
          exact absurd h2 (by omega)
  · intro t it htot hmem
    have h2 := (List.mem_filter.mp hmem).2
    rw [hfilter it htot] at h2
    exact absurd h2 (by simp)

/-- C4 witness: the concrete totalPages = 0 record is rejected by both
gating predicates. -/
theorem claim_C4_witness :
    handlerDecision recZero = none ∧ readyFilter zeroTotalStatus = false :=
  ⟨claim_C4.1 recZero imgZero rfl rfl, claim_C4.2.1 zeroTotalStatus rfl⟩

theorem getItem_putItem (t : List Item) (it : Item) :
    getItem (putItem t it) it.PK it.SK = some it := by
  unfold getItem putItem
  rw [List.find?_cons_of_pos]
  simp

theorem keyCount_putItem (t : List Item) (it : Item) :
    keyCount (putItem t it) it.PK it.SK = 1 := by
  unfold keyCount putItem
  have hzero : (t.filter fun j => !(j.PK == it.PK && j.SK == it.SK)).countP
      (fun j => j.PK == it.PK && j.SK == it.SK) = 0 := by
    rw [List.countP_eq_zero]
    intro a ha
    have h2 := (List.mem_filter.mp ha).2
    simp at h2 ⊢
    tauto
  rw [List.countP_cons, hzero]
  simp

/-- C8 counterexample: a second `createDocumentStatus` for the same
document id does not fail with AlreadyExists — the put carries no
condition expression — it returns a fresh `pending` record and replaces
the existing one (the stored record's tenant changes from tenantA to
tenantB). -/
theorem claim_C8_counterexample :
    (createDocumentStatus (createDocumentStatus [] ("f1") ("tenantA") 0).1
        ("f1") ("tenantB") 0).2.overallStatus = some ("pending") ∧
    (getItem (createDocumentStatus (createDocumentStatus [] ("f1") ("tenantA") 0).1
        ("f1") ("tenantB") 0).1 (("DOC#") ++ ("f1")) ("STATUS")).map Item.tenantId =
      some ("tenantB") ∧
    (getItem (createDocumentStatus [] ("f1") ("tenantA") 0).1
        (("DOC#") ++ ("f1")) ("STATUS")).map Item.tenantId = some ("tenantA") :=
  ⟨rfl, rfl, rfl⟩

/-- C8 (amended): `createDocumentStatus` inserts a status record with
overall status `pending`, processedPages 0, failedPages 0 and the
caller-supplied totalPages (its only call site passes 0); called a
second time for the same document id it does not fail — the
unconditional put simply overwrites, leaving exactly one record under
the key, the one from the second call. -/
theorem claim_C8 :
    (∀ (t : List Item) (fid tid : String) (tot : Nat),
        (createDocumentStatus t fid tid tot).2.overallStatus = some ("pending") ∧
        (createDocumentStatus t fid tid tot).2.totalPages = some tot ∧
        (createDocumentStatus t fid tid tot).2.processedPages = some 0 ∧
        (createDocumentStatus t fid tid tot).2.failedPages = some 0 ∧
        getItem (createDocumentStatus t fid tid tot).1 (("DOC#") ++ fid)
          ("STATUS") = some (createDocumentStatus t fid tid tot).2) ∧
    (∀ (t : List Item) (fid tidA tidB : String) (totA totB : Nat),
        getItem (createDocumentStatus (createDocumentStatus t fid tidA totA).1
            fid tidB totB).1 (("DOC#") ++ fid) ("STATUS") =
          some (createDocumentStatus (createDocumentStatus t fid tidA totA).1
            fid tidB totB).2 ∧
        keyCount (createDocumentStatus (createDocumentStatus t fid tidA totA).1
            fid tidB totB).1 (("DOC#") ++ fid) ("STATUS") = 1) := by
  have hget : ∀ (t : List Item) (fid tid : String) (tot : Nat),
      getItem (createDocumentStatus t fid tid tot).1 (("DOC#") ++ fid)
        ("STATUS") = some (createDocumentStatus t fid tid tot).2 :=
    fun t fid tid tot => getItem_putItem t _
  refine ⟨fun t fid tid tot => ⟨rfl, rfl, rfl, rfl, hget t fid tid tot⟩, ?_⟩
  intro t fid tidA tidB totA totB
  exact ⟨hget _ fid tidB totB, keyCount_putItem _ _⟩

theorem readyFilter_eq_true_iff (it : Item) :
    readyFilter it = true ↔
      (it.SK = ("STATUS") ∧ it.overallStatus = some ("processing") ∧
        ∃ n, it.processedPages = some n ∧ it.totalPages = some n ∧ 0 < n) := by
  unfold readyFilter
  cases hp : it.processedPages with
  | none => simp [hp]
  | some p =>
    cases ht : it.totalPages with
    | none => simp [hp, ht]
    | some tot =>
      simp only [hp, ht, Bool.and_eq_true, beq_iff_eq, decide_eq_true_eq,
        Option.some.injEq]
      constructor
      · rintro ⟨⟨hsk, hst⟩, hpt, hpos⟩
        exact ⟨hsk, hst, p, rfl, by omega, by omega⟩
      · rintro ⟨hsk, hst, n, hn1, hn2, hn3⟩
        exact ⟨⟨hsk, hst⟩, by omega, by omega⟩

/-- C2: on the push path, for every change-feed entry carrying before
and after images (a MODIFY record with both images, the shape the
change feed delivers for mutations), the handler invokes the aggregator
with (fileId, tenantId, totalPages) exactly when the record is the
STATUS row, processed equals total, total is positive and the overall
status is `processing`; on the poll path, the scan + loop produce
exactly one invocation (fileId, tenantId, totalPages) per stored record
satisfying the same four conditions. -/
theorem claim_C2 :
    (∀ (r : StreamRecord) (ni oi : StreamImage),
        r.eventName = ("MODIFY") → r.newImage = some ni → r.oldImage = some oi →
        ∀ out, handlerDecision r = some out ↔
          (ni.SK = ("STATUS") ∧ ni.processedPages = ni.totalPages ∧
            0 < ni.totalPages ∧ ni.overallStatus = ("processing") ∧
            out = (ni.fileId, ni.tenantId, ni.totalPages))) ∧
    (∀ (t : List Item) (inv : String × String × Nat),
        inv ∈ pollInvocations t ↔
          ∃ it, it ∈ t ∧ it.SK = ("STATUS") ∧
            it.overallStatus = some ("processing") ∧
            (∃ n, it.processedPages = some n ∧ it.totalPages = some n ∧ 0 < n) ∧
            inv = (it.fileId, it.tenantId, it.totalPages.getD 0)) := by
  constructor
  · intro r ni oi hev hni hoi out
    obtain ⟨ev, nI, oI⟩ := r
    simp only at hev hni hoi
    subst hev
    subst hni
    subst hoi
    unfold handlerDecision
    rw [if_neg (by simp)]
    simp only
    by_cases hsk : ni.SK = ("STATUS")
    · rw [if_neg (by simpa using hsk)]
      by_cases hc : ni.processedPages = ni.totalPages ∧ 0 < ni.totalPages ∧
          ni.overallStatus = ("processing")
      · rw [if_pos hc]
        obtain ⟨hc1, hc2, hc3⟩ := hc
        constructor
        · intro hsome
          exact ⟨hsk, hc1, hc2, hc3, (Option.some.injEq _ _ ▸ hsome).symm ▸ rfl⟩
        · rintro ⟨-, -, -, -, rfl⟩
          rfl
      · rw [if_neg hc]
        constructor
        · intro hnone
          exact absurd hnone (by simp)
        · rintro ⟨-, h1, h2, h3, -⟩
          exact absurd ⟨h1, h2, h3⟩ hc
    · rw [if_pos (by simpa using hsk)]
      constructor
      · intro hnone
        exact absurd hnone (by simp)
      · rintro ⟨h1, -⟩
        exact absurd h1 hsk
  · intro t inv
    unfold pollInvocations readyForAggregation
    rw [List.mem_map]
    constructor
    · rintro ⟨it, hmem, rfl⟩
      have h2 := List.mem_filter.mp hmem
      obtain ⟨hsk, hst, n, hpn, htn, hpos⟩ := (readyFilter_eq_true_iff it).mp h2.2
      exact ⟨it, h2.1, hsk, hst, ⟨n, hpn, htn, hpos⟩, rfl⟩
    · rintro ⟨it, hmem, hsk, hst, hex, rfl⟩
      exact ⟨it, List.mem_filter.mpr
        ⟨hmem, (readyFilter_eq_true_iff it).mpr ⟨hsk, hst, hex⟩⟩, rfl⟩

/-- C2 witness: a MODIFY image of a just-completed three-page document
triggers exactly the invocation (f, t, 3). -/
theorem claim_C2_witness :
    handlerDecision recDone = some (("f"), ("t"), 3) :=
  ((claim_C2.1 recDone imgDone imgDone rfl rfl rfl) (("f"), ("t"), 3)).mpr
    ⟨rfl, rfl, by decide, rfl, rfl⟩

theorem success_fail_partition :
    ∀ (pages : List Item), (∀ p ∈ pages, p.pageAnalysis.isSome) →
      (pages.filter pageIsSuccess).length + (pages.filter pageIsFailed).length =
        pages.length := by
  intro pages
  induction pages with
  | nil => intro; rfl
  | cons p ps ih =>
    intro h
    have hp := h p (List.mem_cons_self p ps)
    have hps := ih (fun q hq => h q (List.mem_cons_of_mem p hq))
    cases hpa : p.pageAnalysis with
    | none =>
      rw [hpa] at hp
      exact absurd hp (by simp)
    | some j =>
      by_cases he : hasTruthyError j = true
      · have h1 : pageIsSuccess p = false := by simp [pageIsSuccess, hpa, he]
        have h2 : pageIsFailed p = true := by simp [pageIsFailed, hpa, he]
        simp [List.filter_cons, h1, h2]
        omega
      · have h1 : pageIsSuccess p = true := by simp [pageIsSuccess, hpa, he]
        have h2 : pageIsFailed p = false := by
          simp only [pageIsFailed, hpa]
          simpa using he
        simp [List.filter_cons, h1, h2]
        omega

/-- C7: whenever the aggregator proceeds past the guard (all totalPages
page rows are visible, each carrying its stored payload and its
generated PAGE# sort key, delivered by the query in sort-key order), the
single manifest it persists carries the document id, tenant id, the
completion timestamp, totalPages, success/failure counts that partition
the pages and sum to totalPages, and the per-page entry list in strictly
increasing page-number order — whatever order the pages completed in. -/
theorem claim_C7 :
    ∀ (fid tid now : String) (tot : Nat) (pages : List Item),
      pages.length = tot →
      (∀ p ∈ pages, p.pageAnalysis.isSome) →
      (∀ p ∈ pages, ∃ n, p.pageNumber = some n ∧ n ≤ 9999 ∧
          p.SK = String.mk (pageKeyChars n)) →
      pages.Pairwise (fun a b => strLt a.SK b.SK = true) →
      (aggregateResults fid tid tot pages now).s3Writes =
        [(resultsKey tid fid, buildManifest fid tid now tot pages)] ∧
      (buildManifest fid tid now tot pages).fileId = fid ∧
      (buildManifest fid tid now tot pages).tenantId = tid ∧
      (buildManifest fid tid now tot pages).processedAt = now ∧
      (buildManifest fid tid now tot pages).totalPages = tot ∧
      (buildManifest fid tid now tot pages).successCount =
        (pages.filter pageIsSuccess).length ∧
      (buildManifest fid tid now tot pages).failedCount =
        (pages.filter pageIsFailed).length ∧
      (buildManifest fid tid now tot pages).successCount +
        (buildManifest fid tid now tot pages).failedCount = tot ∧
      (buildManifest fid tid now tot pages).chunks = pages.map chunkOf ∧
      ((buildManifest fid tid now tot pages).chunks).Pairwise
        (fun a b => ∃ na nb, a.pageNumber = some na ∧ b.pageNumber = some nb ∧
          na < nb) := by
  intro fid tid now tot pages hlen hpay hkey hsort
  have hguard : ¬ pages.length < tot := by omega
  have hs3 : (aggregateResults fid tid tot pages now).s3Writes =
      [(resultsKey tid fid, buildManifest fid tid now tot pages)] := by
    unfold aggregateResults
    rw [if_neg hguard]
  have hsum : (buildManifest fid tid now tot pages).successCount +
      (buildManifest fid tid now tot pages).failedCount = tot := by
    have := success_fail_partition pages hpay
    unfold buildManifest
    simp only
    omega
  have hpair : ((buildManifest fid tid now tot pages).chunks).Pairwise
      (fun a b => ∃ na nb, a.pageNumber = some na ∧ b.pageNumber = some nb ∧
        na < nb) := by
    have hchunks : (buildManifest fid tid now tot pages).chunks =
        pages.map chunkOf := rfl
    rw [hchunks, List.pairwise_map]
    refine hsort.imp_of_mem ?_
    intro a b ha hb hlt
    obtain ⟨na, hna, hna9, hska⟩ := hkey a ha
    obtain ⟨nb, hnb, hnb9, hskb⟩ := hkey b hb
    rw [hska, hskb] at hlt
    have hlex : lexLt (pageKeyChars na) (pageKeyChars nb) = true := hlt
    have hnab : na < nb := (pageKeyChars_lt_iff na nb hna9 hnb9).mp hlex
    exact ⟨na, nb, hna, hnb, hnab⟩
  exact ⟨hs3, rfl, rfl, rfl, rfl, rfl, rfl, hsum, rfl, hpair⟩

/-- C7 witness: a two-page document with one success and one failure
marker yields one manifest write, counts 1 + 1 = 2, and chunks in
increasing page order. -/
theorem claim_C7_witness :
    (aggregateResults ("f") ("t") 2 samplePages ("ts")).s3Writes =
      [(resultsKey ("t") ("f"), buildManifest ("f") ("t") ("ts") 2 samplePages)] ∧
    (buildManifest ("f") ("t") ("ts") 2 samplePages).successCount +
      (buildManifest ("f") ("t") ("ts") 2 samplePages).failedCount = 2 ∧
    ((buildManifest ("f") ("t") ("ts") 2 samplePages).chunks).Pairwise
      (fun a b => ∃ na nb, a.pageNumber = some na ∧ b.pageNumber = some nb ∧
        na < nb) := by
  have hpay : ∀ p ∈ samplePages, p.pageAnalysis.isSome := by
    intro p hp
    rcases List.mem_cons.mp hp with rfl | hp2
    · rfl
    · rcases List.mem_singleton.mp hp2 with rfl
      rfl
  have hkey : ∀ p ∈ samplePages, ∃ n, p.pageNumber = some n ∧ n ≤ 9999 ∧
      p.SK = String.mk (pageKeyChars n) := by
    intro p hp
    rcases List.mem_cons.mp hp with rfl | hp2
    · exact ⟨1, rfl, by omega, rfl⟩
    · rcases List.mem_singleton.mp hp2 with rfl
      exact ⟨2, rfl, by omega, rfl⟩
  have hsort : samplePages.Pairwise (fun a b => strLt a.SK b.SK = true) := by
    refine List.Pairwise.cons ?_ (List.pairwise_singleton _ _)
    intro b hb
    rcases List.mem_singleton.mp hb with rfl
    decide
  have h := claim_C7 ("f") ("t") ("ts") 2 samplePages rfl hpay hkey hsort
  exact ⟨h.1, h.2.2.2.2.2.2.2.1, h.2.2.2.2.2.2.2.2.2⟩

/-- C10: for one document, page sort keys of pages m < n ≤ 9999 are
distinct and lexicographically ordered like the page numbers — so a
query returning rows in sort-key order returns them in page order — but
at five digits the zero-padding is exceeded and the agreement breaks:
the key of page 10000 sorts before the key of page 9999. -/
theorem claim_C10 :
    (∀ (d : String) (m n : Nat), m < n → n ≤ 9999 →
        (documentPageKeys d m).2 ≠ (documentPageKeys d n).2 ∧
        strLt (documentPageKeys d m).2 (documentPageKeys d n).2 = true) ∧
    strLt (documentPageKeys ("d") 10000).2 (documentPageKeys ("d") 9999).2 =
      true := by
  constructor
  · intro d m n hmn hn
    have hlt : lexLt (pageKeyChars m) (pageKeyChars n) = true :=
      pageKeyChars_lt m n hmn hn
    constructor
    · intro he
      have hdata : pageKeyChars m = pageKeyChars n := congrArg String.data he
      rw [hdata, lexLt_irrefl] at hlt
      exact absurd hlt (by simp)
    · exact hlt
  · decide

/-- C10 witness: pages 12 and 345 of one document get distinct,
correctly ordered sort keys. -/
theorem claim_C10_witness :
    (documentPageKeys ("d") 12).2 ≠ (documentPageKeys ("d") 345).2 ∧
    strLt (documentPageKeys ("d") 12).2 (documentPageKeys ("d") 345).2 = true :=
  claim_C10.1 ("d") 12 345 (by decide) (by decide)
